import Mathlib

/-!
# UART_BLE: the receive / dispatch loop of `src/UART_BLE/main.c`

A shallow embedding of `main` and `Process_UART_BLE_Data`.  The program only
acts on the world by calling its collaborators (SysTick, UART0, the BLE UART,
the RGB LED), so a run is described by

* the contents of the local array `UART_BLE_Buffer`,
* the number of bytes taken so far from the BLE receive stream, and
* the log of the collaborator calls, in program order.

The functions `Check_UART_BLE_Data` and `UART_BLE_Input_String` are declared in
`UART_BLE.h`; their bodies are not part of `src/`.  The matcher is a parameter
of `Process_UART_BLE_Data`; the leading match of section 4.2, its frame-bounded
form and the accumulator of section 4.1 of the specification are defined
separately and marked as modelled from the specification.
-/

namespace UART_BLE

/-! ## Data model -/

/-- The `#define BUFFER_SIZE 128` of `main.c`. -/
def BUFFER_SIZE : Nat := 128

/-- The four colour constants of `GPIO.h` that `main.c` passes to
`RGB_LED_Output`.  Their numeric values are not in `src/`; they are kept
symbolic. -/
inductive Color where
  | RGB_LED_OFF
  | RGB_LED_RED
  | RGB_LED_GREEN
  | RGB_LED_BLUE
  deriving DecidableEq, Repr

/-- One call to a collaborator, with its arguments (for
`UART_BLE_Input_Character`, with the byte it returned). -/
inductive Event where
  | SysTick_Delay_Init
  | RGB_LED_Init
  | UART0_Init
  | UART_BLE_Init
  | SysTick_Delay1ms (ms : Nat)
  | UART_BLE_Reset
  | UART_BLE_Output_String (s : String)
  | UART_BLE_Output_Character (c : Nat)
  | UART_BLE_Input_String (buffer_size : Nat)
  | UART_BLE_Input_Character (c : Nat)
  | UART0_Output_String (s : String)
  | UART0_Output_Unsigned_Decimal (n : Nat)
  | UART0_Output_Newline
  | UART0_Output_Character (c : Nat)
  | RGB_LED_Output (color : Color)
  deriving DecidableEq, Repr

/-- The memory and the call log of a run.  `UART_BLE_Buffer` is the local
`char` array of `main`, one `Nat` per `char`; `rxCount` is the number of bytes
already taken from the BLE receive stream. -/
structure State where
  UART_BLE_Buffer : List Nat
  rxCount : Nat
  trace : List Event
  deriving DecidableEq, Repr

/-- Append one collaborator call to the log. -/
def State.emit (st : State) (e : Event) : State :=
  { st with trace := st.trace ++ [e] }

/-- The bytes of a C string literal, without the closing zero byte. -/
def bytes (s : String) : List Nat := s.toList.map Char.toNat

/-- The type of `Check_UART_BLE_Data(UART_BLE_Buffer, data_string)`: a test on
the buffer and a pattern.  Its body is not in `src/`. -/
abbrev Matcher := List Nat → String → Bool

/-- The call `UART_BLE_Input_Character()`: blocks until the BLE receive stream
`rx` delivers its next byte, and returns it. -/
def UART_BLE_Input_Character (rx : Nat → Nat) (st : State) : Nat × State :=
  (rx st.rxCount,
   { st with rxCount := st.rxCount + 1,
             trace := st.trace ++ [Event.UART_BLE_Input_Character (rx st.rxCount)] })

/-! ## `Process_UART_BLE_Data` (main.c, lines 101-147) -/

/-- The `if` / `else if` chain of `Process_UART_BLE_Data`. -/
def Process_UART_BLE_Data (Check_UART_BLE_Data : Matcher) (rx : Nat → Nat)
    (st : State) : State :=
  if Check_UART_BLE_Data st.UART_BLE_Buffer "RGB LED GREEN" then
    st.emit (Event.RGB_LED_Output Color.RGB_LED_GREEN)
  else if Check_UART_BLE_Data st.UART_BLE_Buffer "RGB LED BLUE" then
    st.emit (Event.RGB_LED_Output Color.RGB_LED_BLUE)
  else if Check_UART_BLE_Data st.UART_BLE_Buffer "RGB LED RED" then
    st.emit (Event.RGB_LED_Output Color.RGB_LED_RED)
  else if Check_UART_BLE_Data st.UART_BLE_Buffer "RGB LED OFF" then
    st.emit (Event.RGB_LED_Output Color.RGB_LED_OFF)
  else if Check_UART_BLE_Data st.UART_BLE_Buffer "ATZ" then
    let st := st.emit (Event.UART0_Output_String "UART BLE Reset Command Issued")
    st.emit Event.UART0_Output_Newline
  else if Check_UART_BLE_Data st.UART_BLE_Buffer "OK" then
    -- `char character = UART_BLE_Input_Character();` the local is never used
    let (_character, st) := UART_BLE_Input_Character rx st
    let st := st.emit (Event.UART0_Output_String "UART BLE Response Received")
    st.emit Event.UART0_Output_Newline
  else
    let st := st.emit (Event.UART0_Output_String "UART BLE Command Not Found")
    st.emit Event.UART0_Output_Newline

/-! ## The main loop (main.c, lines 46-99) -/

/-- The body of the `for` loop of lines 81-91 at index `i`: `none` stands for a
read of `UART_BLE_Buffer[i]` outside the array. -/
def echoBody (st : State) (i : Nat) : Option State :=
  match st.UART_BLE_Buffer[i]? with
  | none => none
  | some c =>
    if c = 0 then some (st.emit (Event.UART0_Output_Character 65))
    else some (st.emit (Event.UART0_Output_Character c))

/-- The loop `for (int i = 0; i < string_size; i++)`: `i` runs over
`0, 1, ..., string_size - 1`, and not at all when `string_size <= 0`. -/
def echoLoop (string_size : Int) (st : State) : Option State :=
  (List.range string_size.toNat).foldlM echoBody st

/-- Lines 75-97: what one pass of the `while (1)` body does once
`UART_BLE_Input_String` has returned `string_size`.  The `int` is converted to
the unsigned 32-bit parameter of `UART0_Output_Unsigned_Decimal`. -/
def cycleAfterInput (Check_UART_BLE_Data : Matcher) (rx : Nat → Nat)
    (string_size : Int) (st : State) : Option State :=
  let st := st.emit (Event.UART0_Output_String "String Size: ")
  let st := st.emit (Event.UART0_Output_Unsigned_Decimal (string_size % 2 ^ 32).toNat)
  let st := st.emit Event.UART0_Output_Newline
  let st := st.emit (Event.UART0_Output_String "UART BLE Data: ")
  match echoLoop string_size st with
  | none => none
  | some st =>
    let st := st.emit Event.UART0_Output_Newline
    let st := Process_UART_BLE_Data Check_UART_BLE_Data rx st
    some (st.emit Event.UART0_Output_Newline)

/-- Lines 49-69 of `main`: the calls made before the `while (1)` loop. -/
def startup (st : State) : State :=
  let st := st.emit Event.SysTick_Delay_Init
  let st := st.emit Event.RGB_LED_Init
  let st := st.emit Event.UART0_Init
  let st := st.emit Event.UART_BLE_Init
  let st := st.emit (Event.SysTick_Delay1ms 1000)
  let st := st.emit Event.UART_BLE_Reset
  let st := st.emit (Event.UART_BLE_Output_String "UART BLE Active\n")
  st.emit (Event.SysTick_Delay1ms 1000)

/-! ## The parts the specification describes and `src/` does not contain -/

/-- Modelled from the spec: the body of `Check_UART_BLE_Data`, which is not in
`src/`.  Section 4.2: the buffer's leading bytes equal the pattern string
exactly, for the pattern's own length; trailing bytes are ignored. -/
def leadingMatch : Matcher :=
  fun UART_BLE_Buffer data_string => (bytes data_string).isPrefixOf UART_BLE_Buffer

/-- Modelled from the spec: the read loop of `UART_BLE_Input_String`, which is
not in `src/`.  Section 4.1: bytes are read one at a time until the terminator
`term` is seen or the capacity is used up; the terminator is consumed and not
stored; every other byte is stored at the next index, from index 0, and echoed
on the transmit path.  `remaining` is the capacity still free and `length` the
number of bytes stored so far. -/
def accumulate (term : Nat) (rx : Nat → Nat) : Nat → Nat → State → Nat × State
  | 0, length, st => (length, st)
  | remaining + 1, length, st =>
    let (character, st) := UART_BLE_Input_Character rx st
    if character = term then (length, st)
    else
      let st := { st with UART_BLE_Buffer := st.UART_BLE_Buffer.set length character }
      let st := st.emit (Event.UART_BLE_Output_Character character)
      accumulate term rx remaining (length + 1) st

/-- Modelled from the spec: `UART_BLE_Input_String(buffer, buffer_size)`, which
is not in `src/`: the contract `accumulate(capacity) -> (buffer, length)` of
section 4.1, with the returned length as the `int` of line 73. -/
def UART_BLE_Input_String (term : Nat) (rx : Nat → Nat) (buffer_size : Nat)
    (st : State) : Int × State :=
  let st := st.emit (Event.UART_BLE_Input_String buffer_size)
  let r := accumulate term rx buffer_size 0 st
  ((r.1 : Int), r.2)

/-- One pass of the `while (1)` body, lines 73-97. -/
def mainCycle (term : Nat) (Check_UART_BLE_Data : Matcher) (rx : Nat → Nat)
    (st : State) : Option State :=
  let (string_size, st) := UART_BLE_Input_String term rx BUFFER_SIZE st
  cycleAfterInput Check_UART_BLE_Data rx string_size st

/-- The first `n` passes of the `while (1)` loop. -/
def mainLoop (term : Nat) (Check_UART_BLE_Data : Matcher) (rx : Nat → Nat) :
    Nat → State → Option State
  | 0, st => some st
  | n + 1, st =>
    match mainCycle term Check_UART_BLE_Data rx st with
    | none => none
    | some st => mainLoop term Check_UART_BLE_Data rx n st

/-- The function `main`, cut after `n` passes of its endless loop.  The local
array starts with the indeterminate contents `buffer0`. -/
def main (term : Nat) (Check_UART_BLE_Data : Matcher) (rx : Nat → Nat)
    (buffer0 : List Nat) (n : Nat) : Option State :=
  mainLoop term Check_UART_BLE_Data rx n
    (startup { UART_BLE_Buffer := buffer0, rxCount := 0, trace := [] })

/-! ## The command table of the specification -/

/-- The actions of section 3 of the specification. -/
inductive Action where
  | set_color (color : Color)
  | reset_notice
  | response_received
  | not_found
  deriving DecidableEq, Repr

/-- What each action of the specification does: set the indicator, emit the
reset notice, drain one byte and emit the response notice, or emit the
"not found" notice. -/
def Action.perform (rx : Nat → Nat) (st : State) : Action → State
  | Action.set_color color => st.emit (Event.RGB_LED_Output color)
  | Action.reset_notice =>
    (st.emit (Event.UART0_Output_String "UART BLE Reset Command Issued")).emit
      Event.UART0_Output_Newline
  | Action.response_received =>
    (((UART_BLE_Input_Character rx st).2).emit
      (Event.UART0_Output_String "UART BLE Response Received")).emit
      Event.UART0_Output_Newline
  | Action.not_found =>
    (st.emit (Event.UART0_Output_String "UART BLE Command Not Found")).emit
      Event.UART0_Output_Newline

/-- The ordered command table: the patterns in the order in which
`Process_UART_BLE_Data` tests them. -/
def commandTable : List (String × Action) :=
  [("RGB LED GREEN", Action.set_color Color.RGB_LED_GREEN),
   ("RGB LED BLUE", Action.set_color Color.RGB_LED_BLUE),
   ("RGB LED RED", Action.set_color Color.RGB_LED_RED),
   ("RGB LED OFF", Action.set_color Color.RGB_LED_OFF),
   ("ATZ", Action.reset_notice),
   ("OK", Action.response_received)]

/-- First-match-wins selection over a table: the action of the first entry
whose pattern the matcher accepts, and the default action when there is
none. -/
def select (check : Matcher) (UART_BLE_Buffer : List Nat) :
    List (String × Action) → Action
  | [] => Action.not_found
  | (pattern, action) :: rest =>
    if check UART_BLE_Buffer pattern then action
    else select check UART_BLE_Buffer rest

/-- The dispatcher of section 4.2 over an arbitrary table. -/
def dispatch (check : Matcher) (table : List (String × Action)) (rx : Nat → Nat)
    (st : State) : State :=
  (select check st.UART_BLE_Buffer table).perform rx st

/-! ## Observations on a call log -/

/-- The bytes returned by the `UART_BLE_Input_Character` calls of a log, in
order: one entry per byte taken from the BLE receive stream. -/
def inputCharacterCalls : List Event → List Nat
  | [] => []
  | Event.UART_BLE_Input_Character c :: rest => c :: inputCharacterCalls rest
  | _ :: rest => inputCharacterCalls rest

/-- The colours passed to `RGB_LED_Output` in a log, in order. -/
def ledOutputCalls : List Event → List Color
  | [] => []
  | Event.RGB_LED_Output color :: rest => color :: ledOutputCalls rest
  | _ :: rest => ledOutputCalls rest

/-- The character the loop of lines 81-91 prints for the buffer byte `c`:
`'A'` (65) for the zero byte, the byte itself otherwise. -/
def echoChar (c : Nat) : Nat := if c = 0 then 65 else c

/-- The next `n` bytes the BLE receive stream delivers from position `pos`
on. -/
def nextBytes (rx : Nat → Nat) : Nat → Nat → List Nat
  | _, 0 => []
  | pos, n + 1 => rx pos :: nextBytes rx (pos + 1) n

/-- The calls made inside `UART_BLE_Input_String` (as section 4.1 describes it)
while it takes a frame and its terminator from the stream: every frame byte is
read and echoed, then the terminator is read. -/
def frameCalls : List Nat → Nat → List Event
  | [], term => [Event.UART_BLE_Input_Character term]
  | c :: frame, term =>
    Event.UART_BLE_Input_Character c :: Event.UART_BLE_Output_Character c ::
      frameCalls frame term

/-- The calls of `main` that belong to its start-up sequence: the delays, the
reset of the module and the greeting string. -/
def isStartupCall : Event → Bool
  | Event.SysTick_Delay1ms _ => true
  | Event.UART_BLE_Reset => true
  | Event.UART_BLE_Output_String _ => true
  | _ => false

/-! ## Dispatch -/

/-- The `else` branch: when the matcher rejects all six patterns, the two calls
of lines 144-145 are made and nothing else changes. -/
theorem process_not_found (check : Matcher) (rx : Nat → Nat) (st : State)
    (h : (commandTable.all fun e => !check st.UART_BLE_Buffer e.1) = true) :
    Process_UART_BLE_Data check rx st =
      { st with trace := st.trace ++
          [Event.UART0_Output_String "UART BLE Command Not Found",
           Event.UART0_Output_Newline] } := by
  simp [commandTable] at h
  simp [Process_UART_BLE_Data, h, State.emit]

/-- The `if` / `else if` chain selects exactly as the first-match loop over the
command table does. -/
theorem process_eq_perform_select (check : Matcher) (rx : Nat → Nat) (st : State) :
    Process_UART_BLE_Data check rx st =
      (select check st.UART_BLE_Buffer commandTable).perform rx st := by
  unfold Process_UART_BLE_Data
  simp only [commandTable, select]
  split_ifs <;> rfl

/-- C1: `Process_UART_BLE_Data` is the first-match-wins dispatch over the
ordered command table, for every matcher, receive stream and state; when no
pattern matches, it emits "UART BLE Command Not Found" and a newline and changes
nothing else. -/
theorem process_eq_dispatch (check : Matcher) (rx : Nat → Nat) (st : State) :
    Process_UART_BLE_Data check rx st = dispatch check commandTable rx st ∧
    ((commandTable.all fun e => !check st.UART_BLE_Buffer e.1) = true →
      Process_UART_BLE_Data check rx st =
        { st with trace := st.trace ++
            [Event.UART0_Output_String "UART BLE Command Not Found",
             Event.UART0_Output_Newline] }) := by
  exact ⟨process_eq_perform_select check rx st, process_not_found check rx st⟩

/-! ### The bytes of the six patterns -/

theorem bytes_green :
    bytes "RGB LED GREEN" = [82, 71, 66, 32, 76, 69, 68, 32, 71, 82, 69, 69, 78] := by
  decide

theorem bytes_blue :
    bytes "RGB LED BLUE" = [82, 71, 66, 32, 76, 69, 68, 32, 66, 76, 85, 69] := by
  decide

theorem bytes_red :
    bytes "RGB LED RED" = [82, 71, 66, 32, 76, 69, 68, 32, 82, 69, 68] := by
  decide

theorem bytes_off :
    bytes "RGB LED OFF" = [82, 71, 66, 32, 76, 69, 68, 32, 79, 70, 70] := by
  decide

theorem bytes_atz : bytes "ATZ" = [65, 84, 90] := by
  decide

theorem bytes_ok : bytes "OK" = [79, 75] := by
  decide

/-- C2: under the leading match, a buffer that starts with one of the four
indicator patterns, followed by any bytes, makes `Process_UART_BLE_Data` call
`RGB_LED_Output` once with that pattern's colour and do nothing else. -/
theorem indicator_pattern_sets_colour (pattern : String) (color : Color)
    (h : (pattern, Action.set_color color) ∈ commandTable)
    (s : List Nat) (rx : Nat → Nat) (st : State) :
    Process_UART_BLE_Data leadingMatch rx { st with UART_BLE_Buffer := bytes pattern ++ s } =
      { UART_BLE_Buffer := bytes pattern ++ s,
        rxCount := st.rxCount,
        trace := st.trace ++ [Event.RGB_LED_Output color] } := by
  simp only [commandTable, List.mem_cons, Prod.mk.injEq, Action.set_color.injEq,
    List.mem_singleton, reduceCtorEq, and_false, or_false, List.not_mem_nil] at h
  rcases h with ⟨rfl, rfl⟩ | ⟨rfl, rfl⟩ | ⟨rfl, rfl⟩ | ⟨rfl, rfl⟩ <;>
    simp [Process_UART_BLE_Data, leadingMatch, bytes_green, bytes_blue, bytes_red,
      bytes_off, List.isPrefixOf, State.emit]

/-- C2, at the two buffers the specification names: "RGB LED RED" sets RED and
"RGB LED GREENXYZ" sets GREEN. -/
theorem indicator_pattern_sets_colour_witness :
    Process_UART_BLE_Data leadingMatch (fun _ => 0)
        { UART_BLE_Buffer := bytes "RGB LED RED" ++ [], rxCount := 0, trace := [] } =
      { UART_BLE_Buffer := bytes "RGB LED RED" ++ [], rxCount := 0,
        trace := [] ++ [Event.RGB_LED_Output Color.RGB_LED_RED] } ∧
    Process_UART_BLE_Data leadingMatch (fun _ => 0)
        { UART_BLE_Buffer := bytes "RGB LED GREEN" ++ [88, 89, 90], rxCount := 0, trace := [] } =
      { UART_BLE_Buffer := bytes "RGB LED GREEN" ++ [88, 89, 90], rxCount := 0,
        trace := [] ++ [Event.RGB_LED_Output Color.RGB_LED_GREEN] } :=
  ⟨indicator_pattern_sets_colour "RGB LED RED" Color.RGB_LED_RED (by decide) []
      (fun _ => 0) { UART_BLE_Buffer := [], rxCount := 0, trace := [] },
   indicator_pattern_sets_colour "RGB LED GREEN" Color.RGB_LED_GREEN (by decide) [88, 89, 90]
      (fun _ => 0) { UART_BLE_Buffer := [], rxCount := 0, trace := [] }⟩

/-! ### Helper lemmas on call logs -/

theorem inputCharacterCalls_append (a b : List Event) :
    inputCharacterCalls (a ++ b) = inputCharacterCalls a ++ inputCharacterCalls b := by
  induction a with
  | nil => rfl
  | cons e a ih => cases e <;> simp [inputCharacterCalls, ih]

/-- C4: when "OK" is the first pattern the matcher accepts,
`Process_UART_BLE_Data` takes exactly one byte from the BLE receive stream,
whatever its value, and then emits "UART BLE Response Received" and a newline;
in every other case it takes no byte. -/
theorem ok_drains_exactly_one_byte (check : Matcher) (rx : Nat → Nat) (st : State) :
    ((check st.UART_BLE_Buffer "RGB LED GREEN" = false ∧
      check st.UART_BLE_Buffer "RGB LED BLUE" = false ∧
      check st.UART_BLE_Buffer "RGB LED RED" = false ∧
      check st.UART_BLE_Buffer "RGB LED OFF" = false ∧
      check st.UART_BLE_Buffer "ATZ" = false ∧
      check st.UART_BLE_Buffer "OK" = true) →
      Process_UART_BLE_Data check rx st =
        { UART_BLE_Buffer := st.UART_BLE_Buffer,
          rxCount := st.rxCount + 1,
          trace := st.trace ++
            [Event.UART_BLE_Input_Character (rx st.rxCount),
             Event.UART0_Output_String "UART BLE Response Received",
             Event.UART0_Output_Newline] }) ∧
    (¬ (check st.UART_BLE_Buffer "RGB LED GREEN" = false ∧
        check st.UART_BLE_Buffer "RGB LED BLUE" = false ∧
        check st.UART_BLE_Buffer "RGB LED RED" = false ∧
        check st.UART_BLE_Buffer "RGB LED OFF" = false ∧
        check st.UART_BLE_Buffer "ATZ" = false ∧
        check st.UART_BLE_Buffer "OK" = true) →
      (Process_UART_BLE_Data check rx st).rxCount = st.rxCount ∧
      inputCharacterCalls (Process_UART_BLE_Data check rx st).trace =
        inputCharacterCalls st.trace) := by
  constructor
  · rintro ⟨h1, h2, h3, h4, h5, h6⟩
    simp [Process_UART_BLE_Data, h1, h2, h3, h4, h5, h6, State.emit,
      UART_BLE_Input_Character]
  · intro h
    unfold Process_UART_BLE_Data
    split_ifs with h1 h2 h3 h4 h5 h6 <;>
      first
      | (simp [State.emit, inputCharacterCalls_append, inputCharacterCalls]; done)
      | exact absurd ⟨by simpa using h1, by simpa using h2, by simpa using h3,
          by simpa using h4, by simpa using h5, h6⟩ h

/-- C9: `Process_UART_BLE_Data` leaves `UART_BLE_Buffer` as it found it, in every
branch (the byte drained in the "OK" branch is not stored), and so does the
diagnostic loop of lines 81-91. -/
theorem dispatch_and_echo_keep_buffer (check : Matcher) (rx : Nat → Nat) (st : State) :
    (Process_UART_BLE_Data check rx st).UART_BLE_Buffer = st.UART_BLE_Buffer ∧
    (∀ (string_size : Int) (st1 : State), echoLoop string_size st = some st1 →
      st1.UART_BLE_Buffer = st.UART_BLE_Buffer) := by
  constructor
  · unfold Process_UART_BLE_Data
    split_ifs <;> rfl
  · intro string_size
    unfold echoLoop
    generalize List.range string_size.toNat = l
    induction l generalizing st with
    | nil => intro st1 h; simp at h; rw [← h]
    | cons i l ih =>
      intro st1 h
      rw [List.foldlM_cons] at h
      cases hb : echoBody st i with
      | none => simp [hb] at h
      | some st2 =>
        simp only [hb, Option.some_bind, Option.bind_eq_bind] at h
        have h2 : st2.UART_BLE_Buffer = st.UART_BLE_Buffer := by
          unfold echoBody at hb
          split at hb
          · simp at hb
          · split at hb <;> (simp at hb; rw [← hb]; rfl)
        rw [ih st2 st1 h, h2]

/-! ## The diagnostic loop -/

theorem echoBody_of_lt (st : State) (i : Nat) (h : i < st.UART_BLE_Buffer.length) :
    echoBody st i =
      some (st.emit (Event.UART0_Output_Character (echoChar (st.UART_BLE_Buffer.getD i 0)))) := by
  unfold echoBody echoChar
  rw [List.getElem?_eq_getElem h, List.getD_eq_getElem _ _ h]
  simp only
  split_ifs <;> rfl

theorem echo_range (n : Nat) (st : State) (h : n ≤ st.UART_BLE_Buffer.length) :
    (List.range n).foldlM echoBody st =
      some { st with trace := st.trace ++
        ((st.UART_BLE_Buffer.take n).map echoChar).map Event.UART0_Output_Character } := by
  induction n with
  | zero => simp
  | succ n ih =>
    have hn : n < st.UART_BLE_Buffer.length := h
    rw [List.range_succ, List.foldlM_append, ih (Nat.le_of_lt hn)]
    simp only [Option.bind_eq_bind, Option.some_bind, List.foldlM_cons, List.foldlM_nil]
    rw [echoBody_of_lt]
    · simp only [State.emit, List.take_succ, List.getElem?_eq_getElem hn,
        Option.toList_some, List.map_append, List.map_cons, List.map_nil, List.append_assoc,
        Option.bind_some, Option.pure_def]
      rw [List.getD_eq_getElem _ _ hn]
    · exact hn

/-- One pass of the loop body after `UART_BLE_Input_String` has returned a
length `n` that lies inside the array. -/
theorem cycleAfterInput_of_le (check : Matcher) (rx : Nat → Nat) (st : State) (n : Nat)
    (hle : n ≤ st.UART_BLE_Buffer.length) (h32 : n < 2 ^ 32) :
    cycleAfterInput check rx (n : Int) st =
      some ((Process_UART_BLE_Data check rx
        { st with
          trace := st.trace ++
            [Event.UART0_Output_String "String Size: ",
             Event.UART0_Output_Unsigned_Decimal n,
             Event.UART0_Output_Newline,
             Event.UART0_Output_String "UART BLE Data: "] ++
            List.map Event.UART0_Output_Character ((st.UART_BLE_Buffer.take n).map echoChar) ++
            [Event.UART0_Output_Newline] }).emit Event.UART0_Output_Newline) := by
  have hdec : ((n : Int) % 2 ^ 32).toNat = n := by
    rw [Int.emod_eq_of_lt (by omega) (by omega)]; simp
  unfold cycleAfterInput echoLoop
  simp only [hdec, Int.toNat_ofNat]
  rw [echo_range _ _ (by simpa [State.emit] using hle)]
  simp [State.emit]

/-- C10: with a buffer of `BUFFER_SIZE` bytes and a reported length `n` between 0
and 128, the loop of lines 81-91 reads no byte outside the array and prints
exactly `n` characters, the `i`-th being `'A'` for a zero byte at index `i` and
the byte at index `i` otherwise; in the cycle these characters stand between
"UART BLE Data: " and the newline that ends the line. -/
theorem data_line_characters (check : Matcher) (rx : Nat → Nat) (st : State)
    (string_size : Int) (hlen : st.UART_BLE_Buffer.length = BUFFER_SIZE)
    (h0 : 0 ≤ string_size) (hn : string_size ≤ 128) :
    echoLoop string_size st =
      some { st with
        trace := st.trace ++ List.map Event.UART0_Output_Character
          ((st.UART_BLE_Buffer.take string_size.toNat).map echoChar) } ∧
    ((st.UART_BLE_Buffer.take string_size.toNat).map echoChar).length = string_size.toNat ∧
    (∀ i, i < string_size.toNat →
      ((st.UART_BLE_Buffer.take string_size.toNat).map echoChar)[i]? =
        some (if st.UART_BLE_Buffer.getD i 0 = 0 then 65 else st.UART_BLE_Buffer.getD i 0)) ∧
    cycleAfterInput check rx string_size st =
      some ((Process_UART_BLE_Data check rx
        { st with
          trace := st.trace ++
            [Event.UART0_Output_String "String Size: ",
             Event.UART0_Output_Unsigned_Decimal string_size.toNat,
             Event.UART0_Output_Newline,
             Event.UART0_Output_String "UART BLE Data: "] ++
            List.map Event.UART0_Output_Character
              ((st.UART_BLE_Buffer.take string_size.toNat).map echoChar) ++
            [Event.UART0_Output_Newline] }).emit Event.UART0_Output_Newline) := by
  have hle : string_size.toNat ≤ st.UART_BLE_Buffer.length := by
    rw [hlen]; unfold BUFFER_SIZE; omega
  refine ⟨?_, ?_, ?_, ?_⟩
  · exact echo_range _ st hle
  · simp; omega
  · intro i hi
    have hi2 : i < st.UART_BLE_Buffer.length := by omega
    simp [List.getElem?_map, List.getElem?_take, hi, List.getElem?_eq_getElem hi2,
      List.getD_eq_getElem _ _ hi2, echoChar]
  · have hcast : ((string_size.toNat : Nat) : Int) = string_size := Int.toNat_of_nonneg h0
    have := cycleAfterInput_of_le check rx st string_size.toNat hle (by omega)
    rw [hcast] at this
    exact this

/-- C10 at a concrete buffer: 128 bytes starting 'O', 'K', 0 and a reported
length of 3. -/
theorem data_line_characters_witness :
    echoLoop 3 { UART_BLE_Buffer := [79, 75, 0] ++ List.replicate 125 7, rxCount := 0,
                 trace := [] } =
      some { UART_BLE_Buffer := [79, 75, 0] ++ List.replicate 125 7, rxCount := 0,
             trace := [Event.UART0_Output_Character 79, Event.UART0_Output_Character 75,
                       Event.UART0_Output_Character 65] } :=
  (data_line_characters leadingMatch (fun _ => 0)
    { UART_BLE_Buffer := [79, 75, 0] ++ List.replicate 125 7, rxCount := 0, trace := [] }
    3 (by simp [BUFFER_SIZE]) (by decide) (by decide)).1

/-! ## The accumulator of section 4.1 -/

theorem take_succ_set (l : List Nat) (n c : Nat) (h : n < l.length) :
    (l.set n c).take (n + 1) = l.take n ++ [c] := by
  rw [List.set_eq_take_append_cons_drop, if_pos h]
  have hl : (List.take n l).length = n := List.length_take_of_le (Nat.le_of_lt h)
  have := @List.take_append Nat (List.take n l) (c :: List.drop (n + 1) l) 1
  rw [hl] at this
  simpa using this

/-- A frame without the terminator, shorter than the free capacity and followed
by the terminator, is stored from index `length` on; the terminator is taken
from the stream and not stored. -/
theorem accumulate_frame (term : Nat) (rx : Nat → Nat) (frame : List Nat) :
    ∀ (remaining length : Nat) (st : State), term ∉ frame → frame.length < remaining →
      nextBytes rx st.rxCount (frame.length + 1) = frame ++ [term] →
      length + frame.length ≤ st.UART_BLE_Buffer.length →
      accumulate term rx remaining length st =
        (length + frame.length,
         { UART_BLE_Buffer := st.UART_BLE_Buffer.take length ++ frame ++
             st.UART_BLE_Buffer.drop (length + frame.length),
           rxCount := st.rxCount + frame.length + 1,
           trace := st.trace ++ frameCalls frame term }) := by
  induction frame with
  | nil =>
    intro remaining length st _ hrem hrx _
    cases remaining with
    | zero => simp at hrem
    | succ r =>
      simp only [List.length_nil, Nat.zero_add, nextBytes, List.nil_append, List.cons.injEq,
        and_true] at hrx
      simp [accumulate, UART_BLE_Input_Character, hrx, frameCalls]
  | cons c frame ih =>
    intro remaining length st hterm hrem hrx hlen
    cases remaining with
    | zero => simp at hrem
    | succ r =>
      simp only [List.length_cons, nextBytes, List.cons_append, List.cons.injEq] at hrx
      obtain ⟨hc, hrest⟩ := hrx
      have hne : c ≠ term := by
        intro h; apply hterm; simp [h]
      have hterm2 : term ∉ frame := by
        intro h; apply hterm; simp [h]
      simp only [List.length_cons] at hrem hlen
      have hlt : length < st.UART_BLE_Buffer.length := by omega
      simp only [accumulate, UART_BLE_Input_Character, hc, hne, if_false, State.emit]
      rw [ih r (length + 1) _ hterm2 (by omega) (by simpa using hrest)
        (by simp only [List.length_set]; omega)]
      simp only [List.length_cons, Prod.mk.injEq, State.mk.injEq]
      refine ⟨by omega, ?_, by omega, by simp [frameCalls]⟩
      rw [take_succ_set _ _ _ hlt, List.drop_set_of_lt _ _ (by omega)]
      simp [Nat.add_assoc, Nat.add_comm 1]

/-! ## One pass of the main loop on a complete frame -/

/-- One pass of the loop body on a frame shorter than the buffer: the frame is
stored at the front of the buffer, its length and bytes are printed, and
`Process_UART_BLE_Data` runs on the buffer. -/
theorem mainCycle_frame (term : Nat) (check : Matcher) (rx : Nat → Nat) (frame : List Nat)
    (st : State) (hterm : term ∉ frame) (hlt : frame.length < BUFFER_SIZE)
    (hrx : nextBytes rx st.rxCount (frame.length + 1) = frame ++ [term])
    (hlen : st.UART_BLE_Buffer.length = BUFFER_SIZE) :
    mainCycle term check rx st =
      some ((Process_UART_BLE_Data check rx
        { UART_BLE_Buffer := frame ++ st.UART_BLE_Buffer.drop frame.length,
          rxCount := st.rxCount + frame.length + 1,
          trace := st.trace ++ [Event.UART_BLE_Input_String BUFFER_SIZE] ++
            frameCalls frame term ++
            [Event.UART0_Output_String "String Size: ",
             Event.UART0_Output_Unsigned_Decimal frame.length,
             Event.UART0_Output_Newline,
             Event.UART0_Output_String "UART BLE Data: "] ++
            List.map Event.UART0_Output_Character (frame.map echoChar) ++
            [Event.UART0_Output_Newline] }).emit Event.UART0_Output_Newline) := by
  unfold mainCycle UART_BLE_Input_String
  dsimp only
  rw [accumulate_frame term rx frame BUFFER_SIZE 0 _ hterm hlt
    (by simpa [State.emit] using hrx) (by simp [State.emit, hlen]; omega)]
  simp only [Nat.zero_add, List.take_zero, List.nil_append, State.emit]
  have h32 : frame.length < 2 ^ 32 := by unfold BUFFER_SIZE at hlt; omega
  rw [cycleAfterInput_of_le check rx _ frame.length (by simp) h32]
  simp [State.emit]

/-- C5 (amended): one pass of the main loop on the bytes of "RGB LED BLUE"
followed by the terminator sets the indicator to BLUE, prints the "String Size: "
line with the length 12, and emits no "UART BLE Command Not Found". -/
theorem cycle_rgb_led_blue (term : Nat) (rx : Nat → Nat) (st : State)
    (hlen : st.UART_BLE_Buffer.length = BUFFER_SIZE)
    (hterm : term ∉ bytes "RGB LED BLUE")
    (hrx : nextBytes rx st.rxCount 13 = bytes "RGB LED BLUE" ++ [term]) :
    ∃ log : List Event,
      mainCycle term leadingMatch rx st =
        some { UART_BLE_Buffer := bytes "RGB LED BLUE" ++ st.UART_BLE_Buffer.drop 12,
               rxCount := st.rxCount + 13,
               trace := st.trace ++ log } ∧
      log = [Event.UART_BLE_Input_String 128] ++ frameCalls (bytes "RGB LED BLUE") term ++
          [Event.UART0_Output_String "String Size: ",
           Event.UART0_Output_Unsigned_Decimal 12,
           Event.UART0_Output_Newline,
           Event.UART0_Output_String "UART BLE Data: "] ++
          List.map Event.UART0_Output_Character (bytes "RGB LED BLUE") ++
          [Event.UART0_Output_Newline,
           Event.RGB_LED_Output Color.RGB_LED_BLUE,
           Event.UART0_Output_Newline] ∧
      ledOutputCalls log = [Color.RGB_LED_BLUE] ∧
      Event.UART0_Output_String "UART BLE Command Not Found" ∉ log := by
  refine ⟨_, ?_, rfl, ?_, ?_⟩
  · rw [mainCycle_frame term leadingMatch rx (bytes "RGB LED BLUE") st hterm
      (by rw [bytes_blue]; decide) (by rw [bytes_blue] at hrx ⊢; exact hrx) hlen]
    simp [Process_UART_BLE_Data, leadingMatch, bytes_green, bytes_blue, List.isPrefixOf,
      State.emit, echoChar, BUFFER_SIZE]
  · simp [bytes_blue, frameCalls, ledOutputCalls]
  · simp [bytes_blue, frameCalls]

/-- C5 at the terminator 13 (carriage return), from the start of the stream and
with a buffer of 128 zero bytes. -/
theorem cycle_rgb_led_blue_witness :
    ∃ log : List Event,
      mainCycle 13 leadingMatch
          (fun i => [82, 71, 66, 32, 76, 69, 68, 32, 66, 76, 85, 69, 13].getD i 0)
          { UART_BLE_Buffer := List.replicate 128 0, rxCount := 0, trace := [] } =
        some { UART_BLE_Buffer := bytes "RGB LED BLUE" ++ (List.replicate 128 0).drop 12,
               rxCount := 0 + 13,
               trace := [] ++ log } ∧
      log = [Event.UART_BLE_Input_String 128] ++ frameCalls (bytes "RGB LED BLUE") 13 ++
          [Event.UART0_Output_String "String Size: ",
           Event.UART0_Output_Unsigned_Decimal 12,
           Event.UART0_Output_Newline,
           Event.UART0_Output_String "UART BLE Data: "] ++
          List.map Event.UART0_Output_Character (bytes "RGB LED BLUE") ++
          [Event.UART0_Output_Newline,
           Event.RGB_LED_Output Color.RGB_LED_BLUE,
           Event.UART0_Output_Newline] ∧
      ledOutputCalls log = [Color.RGB_LED_BLUE] ∧
      Event.UART0_Output_String "UART BLE Command Not Found" ∉ log :=
  cycle_rgb_led_blue 13
    (fun i => [82, 71, 66, 32, 76, 69, 68, 32, 66, 76, 85, 69, 13].getD i 0)
    { UART_BLE_Buffer := List.replicate 128 0, rxCount := 0, trace := [] }
    (by simp [BUFFER_SIZE]) (by rw [bytes_blue]; decide) (by rw [bytes_blue]; rfl)

/-- C5 as written fails: on 'R','G','B',' ','L','E','D',' ','B','L','U','E' and
the terminator the pass prints the length 12, and the length 11 is printed
nowhere. -/
theorem cycle_rgb_led_blue_prints_12_not_11 :
    ∃ st1 : State,
      mainCycle 13 leadingMatch
          (fun i => [82, 71, 66, 32, 76, 69, 68, 32, 66, 76, 85, 69, 13].getD i 0)
          { UART_BLE_Buffer := List.replicate 128 0, rxCount := 0, trace := [] } = some st1 ∧
      Event.UART0_Output_Unsigned_Decimal 12 ∈ st1.trace ∧
      Event.UART0_Output_Unsigned_Decimal 11 ∉ st1.trace := by
  refine ⟨_, mainCycle_frame 13 leadingMatch _ [82, 71, 66, 32, 76, 69, 68, 32, 66, 76, 85, 69]
    _ (by decide) (by decide) rfl (by simp [BUFFER_SIZE]), ?_, ?_⟩ <;>
    simp [Process_UART_BLE_Data, leadingMatch, bytes_green, bytes_blue, List.isPrefixOf,
      State.emit, frameCalls, echoChar]

/-- C7: one pass of the main loop on 'A','T','Z' followed by the terminator
never calls `RGB_LED_Output`, emits "UART BLE Reset Command Issued", emits no
"UART BLE Command Not Found", and takes from the stream only the three frame
bytes and the terminator (nothing during dispatch). -/
theorem cycle_atz (term : Nat) (rx : Nat → Nat) (st : State)
    (hlen : st.UART_BLE_Buffer.length = BUFFER_SIZE)
    (hterm : term ∉ bytes "ATZ")
    (hrx : nextBytes rx st.rxCount 4 = bytes "ATZ" ++ [term]) :
    ∃ log : List Event,
      mainCycle term leadingMatch rx st =
        some { UART_BLE_Buffer := bytes "ATZ" ++ st.UART_BLE_Buffer.drop 3,
               rxCount := st.rxCount + 4,
               trace := st.trace ++ log } ∧
      log = [Event.UART_BLE_Input_String 128] ++ frameCalls (bytes "ATZ") term ++
          [Event.UART0_Output_String "String Size: ",
           Event.UART0_Output_Unsigned_Decimal 3,
           Event.UART0_Output_Newline,
           Event.UART0_Output_String "UART BLE Data: "] ++
          List.map Event.UART0_Output_Character (bytes "ATZ") ++
          [Event.UART0_Output_Newline,
           Event.UART0_Output_String "UART BLE Reset Command Issued",
           Event.UART0_Output_Newline,
           Event.UART0_Output_Newline] ∧
      ledOutputCalls log = [] ∧
      Event.UART0_Output_String "UART BLE Reset Command Issued" ∈ log ∧
      Event.UART0_Output_String "UART BLE Command Not Found" ∉ log ∧
      inputCharacterCalls log = bytes "ATZ" ++ [term] := by
  refine ⟨_, ?_, rfl, ?_, ?_, ?_, ?_⟩
  · rw [mainCycle_frame term leadingMatch rx (bytes "ATZ") st hterm
      (by rw [bytes_atz]; decide) (by rw [bytes_atz] at hrx ⊢; exact hrx) hlen]
    simp [Process_UART_BLE_Data, leadingMatch, bytes_green, bytes_blue, bytes_red, bytes_off,
      bytes_atz, List.isPrefixOf, State.emit, echoChar, BUFFER_SIZE]
  · simp [bytes_atz, frameCalls, ledOutputCalls]
  · simp [bytes_atz, frameCalls]
  · simp [bytes_atz, frameCalls]
  · simp [bytes_atz, frameCalls, inputCharacterCalls]

/-- C7 at the terminator 13 (carriage return), from the start of the stream and
with a buffer of 128 zero bytes. -/
theorem cycle_atz_witness :
    ∃ log : List Event,
      mainCycle 13 leadingMatch (fun i => [65, 84, 90, 13].getD i 0)
          { UART_BLE_Buffer := List.replicate 128 0, rxCount := 0, trace := [] } =
        some { UART_BLE_Buffer := bytes "ATZ" ++ (List.replicate 128 0).drop 3,
               rxCount := 0 + 4,
               trace := [] ++ log } ∧
      log = [Event.UART_BLE_Input_String 128] ++ frameCalls (bytes "ATZ") 13 ++
          [Event.UART0_Output_String "String Size: ",
           Event.UART0_Output_Unsigned_Decimal 3,
           Event.UART0_Output_Newline,
           Event.UART0_Output_String "UART BLE Data: "] ++
          List.map Event.UART0_Output_Character (bytes "ATZ") ++
          [Event.UART0_Output_Newline,
           Event.UART0_Output_String "UART BLE Reset Command Issued",
           Event.UART0_Output_Newline,
           Event.UART0_Output_Newline] ∧
      ledOutputCalls log = [] ∧
      Event.UART0_Output_String "UART BLE Reset Command Issued" ∈ log ∧
      Event.UART0_Output_String "UART BLE Command Not Found" ∉ log ∧
      inputCharacterCalls log = bytes "ATZ" ++ [13] :=
  cycle_atz 13 (fun i => [65, 84, 90, 13].getD i 0)
    { UART_BLE_Buffer := List.replicate 128 0, rxCount := 0, trace := [] }
    (by simp [BUFFER_SIZE]) (by rw [bytes_atz]; decide) (by rw [bytes_atz]; rfl)

/-! ## The empty frame -/

theorem select_of_unique (check : Matcher) (buffer : List Nat) (e : String × Action) :
    ∀ table : List (String × Action), e ∈ table → check buffer e.1 = true →
      (∀ e1 ∈ table, check buffer e1.1 = true → e1 = e) →
      select check buffer table = e.2 := by
  intro table
  induction table with
  | nil => intro h; simp at h
  | cons hd rest ih =>
    intro hmem hcheck huniq
    obtain ⟨pattern, action⟩ := hd
    unfold select
    by_cases hp : check buffer pattern = true
    · rw [if_pos hp]
      have := huniq (pattern, action) (List.mem_cons_self _ _) hp
      rw [← this]
    · rw [if_neg hp]
      have hne : e ≠ (pattern, action) := by
        intro h; rw [h] at hcheck; exact hp hcheck
      have hmem2 : e ∈ rest := by
        rcases List.mem_cons.mp hmem with h | h
        · exact absurd h hne
        · exact h
      exact ih hmem2 hcheck (fun e1 h1 => huniq e1 (List.mem_cons_of_mem _ h1))

theorem select_of_none (check : Matcher) (buffer : List Nat) :
    ∀ table : List (String × Action), (∀ e ∈ table, check buffer e.1 = false) →
      select check buffer table = Action.not_found := by
  intro table
  induction table with
  | nil => intro _; rfl
  | cons hd rest ih =>
    intro h
    obtain ⟨pattern, action⟩ := hd
    unfold select
    have hp := h (pattern, action) (List.mem_cons_self _ _)
    simp only at hp
    rw [hp]
    simp only [Bool.false_eq_true, if_false]
    exact ih (fun e he => h e (List.mem_cons_of_mem _ he))

theorem patterns_prefix_free :
    ∀ e1 ∈ commandTable, ∀ e2 ∈ commandTable, bytes e1.1 <+: bytes e2.1 → e1 = e2 := by
  simp only [commandTable, List.mem_cons, List.mem_singleton, List.not_mem_nil, or_false,
    forall_eq_or_imp, forall_eq, bytes_green, bytes_blue, bytes_red, bytes_off, bytes_atz,
    bytes_ok]
  simp [List.cons_prefix_cons]

theorem leadingMatch_unique (buffer : List Nat) :
    ∀ e1 ∈ commandTable, ∀ e2 ∈ commandTable, leadingMatch buffer e1.1 = true →
      leadingMatch buffer e2.1 = true → e1 = e2 := by
  intro e1 h1 e2 h2 m1 m2
  have p1 : bytes e1.1 <+: buffer := List.isPrefixOf_iff_prefix.mp m1
  have p2 : bytes e2.1 <+: buffer := List.isPrefixOf_iff_prefix.mp m2
  rcases List.prefix_or_prefix_of_prefix p1 p2 with h | h
  · exact patterns_prefix_free e1 h1 e2 h2 h
  · exact (patterns_prefix_free e2 h2 e1 h1 h).symm

/-- C8: no pattern of the command table is a prefix of another one; so the
leading match accepts at most one pattern on any buffer, and the first-match
dispatch over any permutation of the table does what `Process_UART_BLE_Data`
does. -/
theorem test_order_is_irrelevant :
    (∀ e1 ∈ commandTable, ∀ e2 ∈ commandTable, bytes e1.1 <+: bytes e2.1 → e1 = e2) ∧
    (∀ buffer : List Nat, ∀ e1 ∈ commandTable, ∀ e2 ∈ commandTable,
      leadingMatch buffer e1.1 = true → leadingMatch buffer e2.1 = true → e1 = e2) ∧
    (∀ table : List (String × Action), table.Perm commandTable →
      ∀ (rx : Nat → Nat) (st : State),
        select leadingMatch st.UART_BLE_Buffer table =
          select leadingMatch st.UART_BLE_Buffer commandTable ∧
        dispatch leadingMatch table rx st = Process_UART_BLE_Data leadingMatch rx st) := by
  refine ⟨patterns_prefix_free, leadingMatch_unique, ?_⟩
  intro table hperm rx st
  have hsel : select leadingMatch st.UART_BLE_Buffer table =
      select leadingMatch st.UART_BLE_Buffer commandTable := by
    by_cases hex : ∃ e ∈ commandTable, leadingMatch st.UART_BLE_Buffer e.1 = true
    · obtain ⟨e, he, hm⟩ := hex
      rw [select_of_unique leadingMatch _ e table (hperm.mem_iff.mpr he) hm
          (fun e1 h1 m1 => leadingMatch_unique _ e1 (hperm.mem_iff.mp h1) e he m1 hm),
        select_of_unique leadingMatch _ e commandTable he hm
          (fun e1 h1 m1 => leadingMatch_unique _ e1 h1 e he m1 hm)]
    · have hnone : ∀ e ∈ commandTable, leadingMatch st.UART_BLE_Buffer e.1 = false := by
        intro e he
        cases hm : leadingMatch st.UART_BLE_Buffer e.1
        · rfl
        · exact absurd ⟨e, he, hm⟩ hex
      rw [select_of_none leadingMatch _ table (fun e he => hnone e (hperm.mem_iff.mp he)),
        select_of_none leadingMatch _ commandTable hnone]
  refine ⟨hsel, ?_⟩
  rw [process_eq_perform_select]
  unfold dispatch
  rw [hsel]

/-! ## Start-up -/

theorem accumulate_inv (term : Nat) (rx : Nat → Nat) :
    ∀ (remaining length : Nat) (st : State),
      (accumulate term rx remaining length st).1 ≤ length + remaining ∧
      (accumulate term rx remaining length st).2.UART_BLE_Buffer.length =
        st.UART_BLE_Buffer.length ∧
      ∃ new : List Event,
        (accumulate term rx remaining length st).2.trace = st.trace ++ new ∧
        ∀ e ∈ new, isStartupCall e = false := by
  intro remaining
  induction remaining with
  | zero =>
    intro length st
    exact ⟨by simp [accumulate], by simp [accumulate], [], by simp [accumulate], by simp⟩
  | succ r ih =>
    intro length st
    simp only [accumulate, UART_BLE_Input_Character]
    split_ifs with hc
    · refine ⟨by simp, rfl, [Event.UART_BLE_Input_Character (rx st.rxCount)], rfl, ?_⟩
      simp [isStartupCall]
    · obtain ⟨h1, h2, new, h3, h4⟩ := ih (length + 1)
        (State.emit
          { UART_BLE_Buffer := st.UART_BLE_Buffer.set length (rx st.rxCount),
            rxCount := st.rxCount + 1,
            trace := st.trace ++ [Event.UART_BLE_Input_Character (rx st.rxCount)] }
          (Event.UART_BLE_Output_Character (rx st.rxCount)))
      refine ⟨by omega, by simpa [State.emit] using h2,
        Event.UART_BLE_Input_Character (rx st.rxCount) ::
          Event.UART_BLE_Output_Character (rx st.rxCount) :: new, ?_, ?_⟩
      · rw [h3]; simp [State.emit]
      · intro e he
        simp only [List.mem_cons] at he
        rcases he with rfl | rfl | he
        · rfl
        · rfl
        · exact h4 e he

theorem process_inv (check : Matcher) (rx : Nat → Nat) (st : State) :
    (Process_UART_BLE_Data check rx st).UART_BLE_Buffer = st.UART_BLE_Buffer ∧
    ∃ new : List Event,
      (Process_UART_BLE_Data check rx st).trace = st.trace ++ new ∧
      ∀ e ∈ new, isStartupCall e = false := by
  unfold Process_UART_BLE_Data
  split_ifs
  · exact ⟨rfl, [_], rfl, by simp [isStartupCall]⟩
  · exact ⟨rfl, [_], rfl, by simp [isStartupCall]⟩
  · exact ⟨rfl, [_], rfl, by simp [isStartupCall]⟩
  · exact ⟨rfl, [_], rfl, by simp [isStartupCall]⟩
  · exact ⟨rfl, [Event.UART0_Output_String "UART BLE Reset Command Issued",
      Event.UART0_Output_Newline], by simp [State.emit], by simp [isStartupCall]⟩
  · exact ⟨rfl, [Event.UART_BLE_Input_Character (rx st.rxCount),
      Event.UART0_Output_String "UART BLE Response Received", Event.UART0_Output_Newline],
      by simp [State.emit, UART_BLE_Input_Character], by simp [isStartupCall]⟩
  · exact ⟨rfl, [Event.UART0_Output_String "UART BLE Command Not Found",
      Event.UART0_Output_Newline], by simp [State.emit], by simp [isStartupCall]⟩

/-- One pass of the loop body always completes on a buffer of `BUFFER_SIZE`
bytes; it starts with the call of `UART_BLE_Input_String` and makes no start-up
call. -/
theorem mainCycle_inv (term : Nat) (check : Matcher) (rx : Nat → Nat) (st : State)
    (hlen : st.UART_BLE_Buffer.length = BUFFER_SIZE) :
    ∃ (st1 : State) (new : List Event),
      mainCycle term check rx st = some st1 ∧
      st1.UART_BLE_Buffer.length = BUFFER_SIZE ∧
      st1.trace = st.trace ++ Event.UART_BLE_Input_String BUFFER_SIZE :: new ∧
      ∀ e ∈ new, isStartupCall e = false := by
  have hacc := accumulate_inv term rx BUFFER_SIZE 0
    (st.emit (Event.UART_BLE_Input_String BUFFER_SIZE))
  unfold mainCycle UART_BLE_Input_String
  dsimp only
  generalize accumulate term rx BUFFER_SIZE 0
    (st.emit (Event.UART_BLE_Input_String BUFFER_SIZE)) = r at hacc ⊢
  obtain ⟨n, st1⟩ := r
  obtain ⟨h1, h2, new1, h3, h4⟩ := hacc
  simp only [State.emit, Nat.zero_add] at h1 h2 h3
  have hle : n ≤ st1.UART_BLE_Buffer.length := by rw [h2, hlen]; exact h1
  have h32 : n < 2 ^ 32 := by unfold BUFFER_SIZE at h1; omega
  rw [cycleAfterInput_of_le check rx st1 n hle h32]
  obtain ⟨hb, new2, h5, h6⟩ := process_inv check rx
    { UART_BLE_Buffer := st1.UART_BLE_Buffer, rxCount := st1.rxCount,
      trace := st1.trace ++
        [Event.UART0_Output_String "String Size: ",
         Event.UART0_Output_Unsigned_Decimal n,
         Event.UART0_Output_Newline,
         Event.UART0_Output_String "UART BLE Data: "] ++
        List.map Event.UART0_Output_Character ((st1.UART_BLE_Buffer.take n).map echoChar) ++
        [Event.UART0_Output_Newline] }
  refine ⟨_, new1 ++
      [Event.UART0_Output_String "String Size: ",
       Event.UART0_Output_Unsigned_Decimal n,
       Event.UART0_Output_Newline,
       Event.UART0_Output_String "UART BLE Data: "] ++
      List.map Event.UART0_Output_Character ((st1.UART_BLE_Buffer.take n).map echoChar) ++
      [Event.UART0_Output_Newline] ++ new2 ++ [Event.UART0_Output_Newline], rfl, ?_, ?_, ?_⟩
  · simp only [State.emit]
    rw [hb]
    simp only [h2, hlen]
  · simp only [State.emit]
    rw [h5, h3]
    simp
  · intro e he
    simp only [List.mem_append, List.mem_cons, List.mem_map, List.mem_singleton,
      List.not_mem_nil, or_false] at he
    rcases he with ((((he | he | he | he | he) | ⟨c, _, rfl⟩) | he) | he) | he
    all_goals first
      | exact h4 e he
      | exact h6 e he
      | (subst he; rfl)
      | rfl

theorem mainLoop_inv (term : Nat) (check : Matcher) (rx : Nat → Nat) :
    ∀ (n : Nat) (st : State), st.UART_BLE_Buffer.length = BUFFER_SIZE →
      ∃ (st1 : State) (new : List Event),
        mainLoop term check rx n st = some st1 ∧
        st1.UART_BLE_Buffer.length = BUFFER_SIZE ∧
        st1.trace = st.trace ++ new ∧
        ∀ e ∈ new, isStartupCall e = false := by
  intro n
  induction n with
  | zero => intro st hlen; exact ⟨st, [], rfl, hlen, by simp, by simp⟩
  | succ n ih =>
    intro st hlen
    obtain ⟨st1, new1, h1, h2, h3, h4⟩ := mainCycle_inv term check rx st hlen
    obtain ⟨st2, new2, k1, k2, k3, k4⟩ := ih st1 h2
    refine ⟨st2, Event.UART_BLE_Input_String BUFFER_SIZE :: new1 ++ new2, ?_, k2, ?_, ?_⟩
    · simp only [mainLoop, h1]; exact k1
    · rw [k3, h3]; simp
    · intro e he
      simp only [List.cons_append, List.mem_cons, List.mem_append] at he
      rcases he with rfl | he | he
      · rfl
      · exact h4 e he
      · exact k4 e he

/-- C6 as written fails: `main` transmits the greeting right after the reset,
before the second delay; nowhere in the start-up calls does the greeting follow
a delay that follows the reset. -/
theorem startup_greeting_precedes_second_delay :
    ∃ st : State,
      main 13 leadingMatch (fun _ => 0) (List.replicate 128 0) 0 = some st ∧
      st.trace =
        [Event.SysTick_Delay_Init, Event.RGB_LED_Init, Event.UART0_Init, Event.UART_BLE_Init,
         Event.SysTick_Delay1ms 1000, Event.UART_BLE_Reset,
         Event.UART_BLE_Output_String "UART BLE Active\n", Event.SysTick_Delay1ms 1000] ∧
      ¬ ∃ (pre post : List Event) (d1 d2 : Nat),
        st.trace = pre ++
          [Event.SysTick_Delay1ms d1, Event.UART_BLE_Reset, Event.SysTick_Delay1ms d2,
           Event.UART_BLE_Output_String "UART BLE Active\n"] ++ post := by
  refine ⟨_, rfl, rfl, ?_⟩
  rintro ⟨pre, post, d1, d2, h⟩
  simp only [startup, State.emit, List.nil_append, List.cons_append] at h
  rcases pre with _ | ⟨a0, _ | ⟨a1, _ | ⟨a2, _ | ⟨a3, _ | ⟨a4, _ | ⟨a5, _ | ⟨a6, _ | ⟨a7,
    _ | ⟨a8, pre⟩⟩⟩⟩⟩⟩⟩⟩⟩ <;> simp at h

/-- C6 (amended): on a buffer of `BUFFER_SIZE` bytes `main` reaches its loop, and
its calls before the first `UART_BLE_Input_String` are, in this order and once
each: the four initialisations, a delay of 1000 ms, `UART_BLE_Reset`, the
greeting "UART BLE Active\n", and a second delay of 1000 ms; no pass of the
loop repeats a delay, the reset or the greeting. -/
theorem startup_sequence (term : Nat) (check : Matcher) (rx : Nat → Nat)
    (buffer0 : List Nat) (n : Nat) (hlen : buffer0.length = BUFFER_SIZE) :
    ∃ (st : State) (rest : List Event),
      main term check rx buffer0 (n + 1) = some st ∧
      st.trace =
        [Event.SysTick_Delay_Init, Event.RGB_LED_Init, Event.UART0_Init, Event.UART_BLE_Init,
         Event.SysTick_Delay1ms 1000, Event.UART_BLE_Reset,
         Event.UART_BLE_Output_String "UART BLE Active\n", Event.SysTick_Delay1ms 1000] ++
        Event.UART_BLE_Input_String BUFFER_SIZE :: rest ∧
      ∀ e ∈ rest, isStartupCall e = false := by
  obtain ⟨st1, new1, h1, h2, h3, h4⟩ := mainCycle_inv term check rx
    (startup { UART_BLE_Buffer := buffer0, rxCount := 0, trace := [] }) hlen
  obtain ⟨st2, new2, k1, _, k3, k4⟩ := mainLoop_inv term check rx n st1 h2
  refine ⟨st2, new1 ++ new2, ?_, ?_, ?_⟩
  · simp only [main, mainLoop, h1]; exact k1
  · rw [k3, h3]; simp [startup, State.emit]
  · intro e he
    rcases List.mem_append.mp he with he | he
    · exact h4 e he
    · exact k4 e he

/-- C6 (amended) for the first pass of the loop, with the terminator 13, the
leading match, a stream of zero bytes and a buffer of 128 zero bytes. -/
theorem startup_sequence_witness :
    ∃ (st : State) (rest : List Event),
      main 13 leadingMatch (fun _ => 0) (List.replicate 128 0) (0 + 1) = some st ∧
      st.trace =
        [Event.SysTick_Delay_Init, Event.RGB_LED_Init, Event.UART0_Init, Event.UART_BLE_Init,
         Event.SysTick_Delay1ms 1000, Event.UART_BLE_Reset,
         Event.UART_BLE_Output_String "UART BLE Active\n", Event.SysTick_Delay1ms 1000] ++
        Event.UART_BLE_Input_String BUFFER_SIZE :: rest ∧
      ∀ e ∈ rest, isStartupCall e = false :=
  startup_sequence 13 leadingMatch (fun _ => 0) (List.replicate 128 0) 0
    (by simp [BUFFER_SIZE])

end UART_BLE
